import Mathlib

/-! Verification of the `agent-secrets` credential broker core.

Shallow embedding of the Go source of the `agent-secrets` daemon
(encrypted store, lease manager, rotation executor, killswitch, request
dispatcher) together with proofs and refutations of the specification's
claims about it.

Strings are embedded as `List Char` (named `Str`), Go `time.Time` and
`time.Duration` as `Int` (nanoseconds), Go maps as association lists with
Go-map lookup/insert/erase semantics.  File-system writes performed by an
operation are captured as an explicit trace of `FsOp` events; audit-log
writes as a trace of `AuditEntry` values.  Randomness (`uuid.New`) and the
current instant (`time.Now`) enter as explicit parameters.
-/

/-- Embedded Go string: a list of characters. -/
abbrev Str := List Char

namespace AgentSecrets

/-! ## types.go / store.go constants -/

/-- Embeds `DefaultNamespace = "default"` (store.go). -/
def DefaultNamespace : Str := "default".toList

/-- Embeds `NamespaceDelimiter = "::"` (store.go). -/
def NamespaceDelimiter : Str := "::".toList

/-- Helper for `strings.SplitN(ref, "::", 2)`: returns the pieces around
the first occurrence of `"::"`, or `none` when `"::"` does not occur.
Mirrors Go's leftmost-match search. -/
def findDelim : Str → Option (Str × Str)
  | [] => none
  | ':' :: ':' :: rest => some ([], rest)
  | c :: rest =>
    match findDelim rest with
    | some (pre, post) => some (c :: pre, post)
    | none => none

/-- Embeds `ParseSecretRef` (store.go): parses `"namespace::name"` at the first
`"::"`, or returns the default namespace for bare names. -/
def ParseSecretRef (ref : Str) : Str × Str :=
  match findDelim ref with
  | some (ns, name) => (ns, name)
  | none => (DefaultNamespace, ref)

/-- Embeds `secretKey` (store.go): composite key `namespace + "::" + name`. -/
def secretKey (ns name : Str) : Str :=
  ns ++ NamespaceDelimiter ++ name

/-- Embeds `Secret.FullName` (types.go): `s.Namespace + "::" + s.Name`, here on a
bare `(namespace, name)` pair. -/
def FullName (ns name : Str) : Str :=
  ns ++ NamespaceDelimiter ++ name

/-! ## types/errors.go : the sentinel error kinds the claims mention -/

/-- Sentinel errors of types/errors.go that the store, lease manager and
rotation executor surface. -/
inductive SentinelError where
  | secretNotFound
  | secretExists
  | storeNotInitialized
  | storeCorrupted
  | leaseNotFound
  | invalidTTL
  | rotationFailed
  | noRotationHook
  | rotationTimeout
  deriving DecidableEq, Repr

/-! ## Go map embedding: association lists with Go-map semantics -/

/-- Go map lookup `m[k]`. -/
def mapLookup (k : Str) : List (Str × α) → Option α
  | [] => none
  | (k', v) :: rest => if k' = k then some v else mapLookup k rest

/-- Go map insert `m[k] = v` (overwrites an existing binding). -/
def mapInsert (k : Str) (v : α) : List (Str × α) → List (Str × α)
  | [] => [(k, v)]
  | (k', v') :: rest =>
    if k' = k then (k, v) :: rest else (k', v') :: mapInsert k v rest

/-- Go map delete `delete(m, k)`. -/
def mapErase (k : Str) : List (Str × α) → List (Str × α)
  | [] => []
  | (k', v') :: rest =>
    if k' = k then rest else (k', v') :: mapErase k rest

/-! ## File-system and store model -/

/-- Embeds `types.Secret` (types.go) together with the stored value
(`secretWithValue`, store.go). `nspace` embeds the Go field `Namespace`. -/
structure SecretWithValue where
  name : Str
  nspace : Str
  createdAt : Int
  updatedAt : Int
  rotateVia : Str
  lastRotated : Int
  value : Str
  deriving DecidableEq, Repr

/-- Embeds `types.Secret`: the metadata-only projection returned by `Store.List`. -/
structure Secret where
  name : Str
  nspace : Str
  createdAt : Int
  updatedAt : Int
  rotateVia : Str
  lastRotated : Int
  deriving DecidableEq, Repr

/-- The metadata projection `secret.Secret` of a stored entry. -/
def SecretWithValue.meta (s : SecretWithValue) : Secret :=
  ⟨s.name, s.nspace, s.createdAt, s.updatedAt, s.rotateVia, s.lastRotated⟩

/-- The subset of `config.Config` the embedded subsystems read. Durations
and times are integer nanoseconds. -/
structure Config where
  secretsPath : Str
  leasesPath : Str
  defaultLeaseTTL : Int
  maxLeaseTTL : Int
  rotationTimeout : Int
  deriving DecidableEq, Repr

/-- Embeds `StoreVersionV2` (store.go). -/
def StoreVersionV2 : Nat := 2

/-- Embeds `types.Lease` (types.go). Times are integer nanoseconds. -/
structure Lease where
  id : Str
  nspace : Str
  secretName : Str
  clientId : Str
  createdAt : Int
  expiresAt : Int
  revoked : Bool
  deriving DecidableEq, Repr

/-- The bytes a subsystem hands to `os.WriteFile`, kept structural:
`encrypted v s` stands for the age encryption of the JSON serialization of
the whole store document `{version: v, secrets: s}` (store.saveUnlocked);
`leasesJson ls` for the JSON serialization of a lease slice
(lease.Manager.Save). Serialization and encryption are injective, so the
constructors model them faithfully for content comparison. -/
inductive FileContent where
  | encrypted (version : Nat) (secrets : List (Str × SecretWithValue))
  | leasesJson (leases : List Lease)
  deriving DecidableEq, Repr

/-- One file-system effect performed by a store or lease operation.
`mode` is the permission bits passed to `os.WriteFile` (0600 = 384). -/
inductive FsOp where
  | writeFile (path : Str) (content : FileContent) (mode : Nat)
  | rename (src dst : Str)
  deriving DecidableEq, Repr

/-- In-memory state of `store.Store`: the identity (None before a
successful `Init`/`Load`), the secret map, and the configuration. The
identity is abstracted to an opaque tag; only its presence matters to the
store's control flow. -/
structure StoreState where
  identity : Option Nat
  secrets : List (Str × SecretWithValue)
  cfg : Config
  deriving DecidableEq, Repr

/-- Result of a store operation: the Go return value, the store state
after the call, and the file-system writes performed. On an early error
return the receiver is untouched and nothing is written. -/
structure StoreOut (α : Type) where
  res : Except SentinelError α
  st : StoreState
  tr : List FsOp
  deriving Repr

/-- Embeds `Store.saveUnlocked` (store.go): marshal the whole document
`{version: 2, secrets}`, encrypt it, and write the ciphertext with
`os.WriteFile(s.cfg.SecretsPath, ciphertext, 0600)` — a single direct
write at the final path. -/
def saveUnlocked (s : StoreState) : Except SentinelError (List FsOp) :=
  match s.identity with
  | none => .error .storeNotInitialized
  | some _ =>
    .ok [FsOp.writeFile s.cfg.secretsPath
          (FileContent.encrypted StoreVersionV2 s.secrets) 384]

/-- Embeds `Store.Save` (store.go). -/
def StoreState.Save (s : StoreState) : StoreOut Unit :=
  match saveUnlocked s with
  | .error e => ⟨.error e, s, []⟩
  | .ok tr => ⟨.ok (), s, tr⟩

/-- Embeds `Store.Add` (store.go): parse the ref, refuse when the composite key
is already bound, insert a fresh entry with
`created_at = updated_at = now`, then persist via `saveUnlocked`. -/
def StoreState.Add (s : StoreState) (now : Int) (name value rotateVia : Str) :
    StoreOut Unit :=
  match s.identity with
  | none => ⟨.error .storeNotInitialized, s, []⟩
  | some _ =>
    let p := ParseSecretRef name
    let key := secretKey p.1 p.2
    match mapLookup key s.secrets with
    | some _ => ⟨.error .secretExists, s, []⟩
    | none =>
      let entry : SecretWithValue :=
        ⟨p.2, p.1, now, now, rotateVia, 0, value⟩
      let s' := { s with secrets := mapInsert key entry s.secrets }
      match saveUnlocked s' with
      | .error e => ⟨.error e, s', []⟩
      | .ok tr => ⟨.ok (), s', tr⟩

/-- Embeds `Store.Get` (store.go): read-only value retrieval. -/
def StoreState.Get (s : StoreState) (name : Str) : Except SentinelError Str :=
  match s.identity with
  | none => .error .storeNotInitialized
  | some _ =>
    let p := ParseSecretRef name
    match mapLookup (secretKey p.1 p.2) s.secrets with
    | none => .error .secretNotFound
    | some sec => .ok sec.value

/-- Embeds `Store.Delete` (store.go). -/
def StoreState.Delete (s : StoreState) (name : Str) : StoreOut Unit :=
  match s.identity with
  | none => ⟨.error .storeNotInitialized, s, []⟩
  | some _ =>
    let p := ParseSecretRef name
    let key := secretKey p.1 p.2
    match mapLookup key s.secrets with
    | none => ⟨.error .secretNotFound, s, []⟩
    | some _ =>
      let s' := { s with secrets := mapErase key s.secrets }
      match saveUnlocked s' with
      | .error e => ⟨.error e, s', []⟩
      | .ok tr => ⟨.ok (), s', tr⟩

/-- Embeds `Store.List` (store.go): metadata-only projections, no values. -/
def StoreState.List (s : StoreState) : Except SentinelError (List Secret) :=
  match s.identity with
  | none => .error .storeNotInitialized
  | some _ => .ok (s.secrets.map (fun kv => kv.2.meta))

/-- Embeds `Store.Update` (store.go): require an existing entry, overwrite the
value, bump `updated_at`, optionally overwrite `rotate_via`, persist. -/
def StoreState.Update (s : StoreState) (now : Int) (name value : Str)
    (rotateVia : Option Str) : StoreOut Unit :=
  match s.identity with
  | none => ⟨.error .storeNotInitialized, s, []⟩
  | some _ =>
    let p := ParseSecretRef name
    let key := secretKey p.1 p.2
    match mapLookup key s.secrets with
    | none => ⟨.error .secretNotFound, s, []⟩
    | some sec =>
      let sec' := { sec with
        value := value
        updatedAt := now
        rotateVia := rotateVia.getD sec.rotateVia }
      let s' := { s with secrets := mapInsert key sec' s.secrets }
      match saveUnlocked s' with
      | .error e => ⟨.error e, s', []⟩
      | .ok tr => ⟨.ok (), s', tr⟩

/-- Embeds `Store.MarkRotated` (store.go): set `last_rotated` and `updated_at`
to now, persist. -/
def StoreState.MarkRotated (s : StoreState) (now : Int) (name : Str) :
    StoreOut Unit :=
  match s.identity with
  | none => ⟨.error .storeNotInitialized, s, []⟩
  | some _ =>
    let p := ParseSecretRef name
    let key := secretKey p.1 p.2
    match mapLookup key s.secrets with
    | none => ⟨.error .secretNotFound, s, []⟩
    | some sec =>
      let sec' := { sec with lastRotated := now, updatedAt := now }
      let s' := { s with secrets := mapInsert key sec' s.secrets }
      match saveUnlocked s' with
      | .error e => ⟨.error e, s', []⟩
      | .ok tr => ⟨.ok (), s', tr⟩

/-- Embeds `Store.WipeAll` (store.go): replace the map with an empty map,
persist. -/
def StoreState.WipeAll (s : StoreState) : StoreOut Unit :=
  match s.identity with
  | none => ⟨.error .storeNotInitialized, s, []⟩
  | some _ =>
    let s' := { s with secrets := [] }
    match saveUnlocked s' with
    | .error e => ⟨.error e, s', []⟩
    | .ok tr => ⟨.ok (), s', tr⟩

/-! ## Audit model (types.go `Action`/`AuditEntry`, audit/entry.go builder) -/

/-- The closed enumeration of audit action tags (types.go). -/
inductive Action where
  | secretAdd
  | secretDelete
  | secretRotate
  | leaseAcquire
  | leaseRevoke
  | leaseExpire
  | killswitch
  | daemonStart
  | daemonStop
  | heartbeatFail
  deriving DecidableEq, Repr

/-- One summary item of the killswitch audit entry's `details`
(killswitch.go `Activate`): `"all leases revoked"`,
`"rotated %d secrets (%d failed)"`, `"store wiped"`. -/
inductive KsDetail where
  | allLeasesRevoked
  | rotatedSecrets (succeeded failed : Nat)
  | storeWiped
  deriving DecidableEq, Repr

/-- The `details` string of an audit entry, kept structural: each
constructor stands for one `fmt.Sprintf` format used at the audit sites
the claims touch. Formatting is injective per constructor, so structural
comparison is faithful. -/
inductive Details where
  | empty
  | ttlExceedsMax (ttl maxTTL : Int)
  | ttlTag (ttl : Int)
  | leaseNotFoundMsg
  | revokedLeases (n : Nat)
  | rotationOutput (out : Str)
  | rotationError (msg : Str) (out : Str)
  | killswitchSummary (items : List KsDetail)
  deriving DecidableEq, Repr

/-- Embeds `types.AuditEntry`: timestamp, action tag, success flag and the
optional context fields (empty when unset, matching Go zero values). -/
structure AuditEntry where
  timestamp : Int
  action : Action
  nspace : Str
  secretName : Str
  clientId : Str
  leaseId : Str
  details : Details
  success : Bool
  deriving DecidableEq, Repr

/-- Embeds `audit.NewEntry` (entry.go): a fresh entry with the given action and
success flag, all optional fields empty. -/
def NewEntry (timestamp : Int) (action : Action) (success : Bool) : AuditEntry :=
  ⟨timestamp, action, [], [], [], [], .empty, success⟩

/-- Embeds `EntryBuilder.WithSecret` (entry.go). -/
def AuditEntry.WithSecret (e : AuditEntry) (name : Str) : AuditEntry :=
  { e with secretName := name }

/-- Embeds `EntryBuilder.WithClient` (entry.go). -/
def AuditEntry.WithClient (e : AuditEntry) (id : Str) : AuditEntry :=
  { e with clientId := id }

/-- Embeds `EntryBuilder.WithLease` (entry.go). -/
def AuditEntry.WithLease (e : AuditEntry) (id : Str) : AuditEntry :=
  { e with leaseId := id }

/-- Embeds `EntryBuilder.WithDetails` (entry.go). -/
def AuditEntry.WithDetails (e : AuditEntry) (d : Details) : AuditEntry :=
  { e with details := d }

/-- Embeds `EntryBuilder.WithNamespace` (entry.go). -/
def AuditEntry.WithNamespace (e : AuditEntry) (ns : Str) : AuditEntry :=
  { e with nspace := ns }

/-! ## Lease manager (lease package) -/

/-- Embeds `IsExpired` (lease package): `time.Now().After(lease.ExpiresAt)`,
i.e. strictly after the expiry instant. -/
def IsExpired (now : Int) (l : Lease) : Bool :=
  l.expiresAt < now

/-- Embeds `IsValid` (lease package): neither revoked nor expired. (The Go nil
check disappears: leases are values here.) -/
def IsValid (now : Int) (l : Lease) : Bool :=
  !l.revoked && !IsExpired now l

/-- In-memory state of `lease.Manager`: the lease map and configuration. -/
structure ManagerState where
  leases : List (Str × Lease)
  cfg : Config
  deriving DecidableEq, Repr

/-- Result of a lease-manager operation: Go return value, manager state
after the call, audit entries written, file-system writes performed. -/
structure LeaseOut (α : Type) where
  res : Except SentinelError α
  st : ManagerState
  audit : List AuditEntry
  tr : List FsOp
  deriving Repr

/-- Embeds `Manager.Save` (lease package): persist only the currently active
(non-revoked, non-expired) leases as JSON at `cfg.LeasesPath`, mode 0600.
Returns the write trace. -/
def ManagerState.SaveTrace (m : ManagerState) (now : Int) : List FsOp :=
  [FsOp.writeFile m.cfg.leasesPath
    (FileContent.leasesJson
      ((m.leases.filter (fun kv => !kv.2.revoked && !IsExpired now kv.2)).map
        (fun kv => kv.2)))
    384]

/-- Embeds `Manager.Acquire` (lease package): substitute the default TTL when
`ttl ≤ 0`; refuse and audit a failure when the TTL exceeds the maximum;
otherwise mint the lease with `created_at = now`,
`expires_at = now + ttl`, insert it, persist, and audit success.
`freshId` stands for `uuid.New().String()`. -/
def ManagerState.Acquire (m : ManagerState) (now : Int) (freshId : Str)
    (ns secretName clientId : Str) (ttl : Int) : LeaseOut Lease :=
  let ttl' := if ttl ≤ 0 then m.cfg.defaultLeaseTTL else ttl
  if m.cfg.maxLeaseTTL < ttl' then
    ⟨.error .invalidTTL, m,
      [(((((NewEntry now .leaseAcquire false).WithNamespace ns).WithSecret
        secretName).WithClient clientId).WithDetails
          (.ttlExceedsMax ttl' m.cfg.maxLeaseTTL))],
      []⟩
  else
    let lease : Lease := ⟨freshId, ns, secretName, clientId, now, now + ttl', false⟩
    let m' := { m with leases := mapInsert freshId lease m.leases }
    ⟨.ok lease, m',
      [((((((NewEntry now .leaseAcquire true).WithNamespace ns).WithSecret
        secretName).WithClient clientId).WithLease freshId).WithDetails
          (.ttlTag ttl'))],
      m'.SaveTrace now⟩

/-- Embeds `Manager.List` (lease package): all leases for which `IsValid` holds
at the observation instant (copies, in map order). -/
def ManagerState.List (m : ManagerState) (now : Int) : List Lease :=
  (m.leases.filter (fun kv => IsValid now kv.2)).map (fun kv => kv.2)

/-- Embeds `Manager.Get` (lease package): a by-value snapshot or "not found". -/
def ManagerState.Get (m : ManagerState) (leaseId : Str) :
    Except SentinelError Lease :=
  match mapLookup leaseId m.leases with
  | none => .error .leaseNotFound
  | some l => .ok l

/-- Embeds `Manager.Revoke` (lease package): flip `revoked`, persist, audit;
missing id audits a failure and returns "not found". -/
def ManagerState.Revoke (m : ManagerState) (now : Int) (leaseId : Str) :
    LeaseOut Unit :=
  match mapLookup leaseId m.leases with
  | none =>
    ⟨.error .leaseNotFound, m,
      [(((NewEntry now .leaseRevoke false).WithLease leaseId).WithDetails
        .leaseNotFoundMsg)], []⟩
  | some l =>
    let m' := { m with leases := mapInsert leaseId { l with revoked := true } m.leases }
    ⟨.ok (), m',
      [(((((NewEntry now .leaseRevoke true).WithNamespace l.nspace).WithSecret
        l.secretName).WithClient l.clientId).WithLease leaseId)],
      m'.SaveTrace now⟩

/-- Embeds `Manager.RevokeAll` (lease package): flip every non-revoked lease,
persist, and write one audit entry — tagged `killswitch` — whose details
carry the revoked count. Always returns nil. -/
def ManagerState.RevokeAll (m : ManagerState) (now : Int) : LeaseOut Unit :=
  let count := (m.leases.filter (fun kv => !kv.2.revoked)).length
  let m' := { m with
    leases := m.leases.map (fun kv => (kv.1, { kv.2 with revoked := true })) }
  ⟨.ok (), m',
    [((NewEntry now .killswitch true).WithDetails (.revokedLeases count))],
    m'.SaveTrace now⟩

/-! ## Rotation executor (rotation package) -/

/-- Embeds `Error()` text of each embedded sentinel (types/errors.go). -/
def sentinelText : SentinelError → Str
  | .secretNotFound => "secret not found".toList
  | .secretExists => "secret already exists".toList
  | .storeNotInitialized => "store not initialized".toList
  | .storeCorrupted => "store data corrupted".toList
  | .leaseNotFound => "lease not found".toList
  | .invalidTTL => "invalid TTL duration".toList
  | .rotationFailed => "rotation hook failed".toList
  | .noRotationHook => "no rotation hook configured".toList
  | .rotationTimeout => "rotation hook timed out".toList

/-- Outcome of running `sh -c <rotate_via>` under the rotation deadline:
normal exit with success, non-zero exit (with the Go error message), or
deadline exceeded. The shell is external, so it enters the model as an
oracle from the command to its outcome. -/
inductive ExecOutcome where
  | success (stdout stderr : Str)
  | exitErr (msg : Str) (stdout stderr : Str)
  | timeout (stdout stderr : Str)
  deriving DecidableEq, Repr

/-- Combined output of a rotation subprocess (rotation `Rotate`): stdout,
then — when stderr is nonempty — a separating newline when stdout was
nonempty, then stderr. -/
def combineOutput (stdout stderr : Str) : Str :=
  if stderr = [] then stdout
  else if stdout = [] then stderr
  else stdout ++ "\n".toList ++ stderr

/-- Embeds `types.RotationResult`: the structured outcome of a rotation hook
execution. -/
structure RotationResult where
  secretName : Str
  success : Bool
  output : Str
  error : Str
  executedAt : Int
  deriving DecidableEq, Repr

/-- Result of `Executor.Rotate`: the possibly-nil `*RotationResult`, the
Go error (by sentinel kind), the store state after the call, audit
entries written, file-system writes performed. -/
structure RotateOut where
  result : Option RotationResult
  err : Option SentinelError
  st : StoreState
  audit : List AuditEntry
  tr : List FsOp
  deriving Repr

/-- Embeds `Executor.logAudit` (rotation package): a `secret_rotate` entry whose
details are the captured output, or `"error: <msg>\noutput: <out>"` when
an error message is present. -/
def logAudit (now : Int) (secretName : Str) (success : Bool)
    (output errMsg : Str) : AuditEntry :=
  { timestamp := now
    action := .secretRotate
    nspace := []
    secretName := secretName
    clientId := []
    leaseId := []
    details := if errMsg = [] then .rotationOutput output
               else .rotationError errMsg output
    success := success }

/-- Embeds `Executor.Rotate` (rotation package): list the store, find the secret
by bare name, refuse when absent or without a hook (returning a nil
result), run the hook through the shell oracle, build the structured
result, mark the secret rotated on success, and audit the attempt.
Error-string formatting of wrapped errors is collapsed to the sentinel
text. -/
def Rotate (st : StoreState) (exec : Str → ExecOutcome) (now : Int)
    (secretName : Str) : RotateOut :=
  match st.List with
  | .error e => ⟨none, some e, st, [], []⟩
  | .ok secrets =>
    match secrets.find? (fun sec => sec.name = secretName) with
    | none => ⟨none, some .secretNotFound, st, [], []⟩
    | some sec =>
      if sec.rotateVia = [] then
        ⟨none, some .noRotationHook, st, [], []⟩
      else
        match exec sec.rotateVia with
        | .timeout o e' =>
          let output := combineOutput o e'
          ⟨some ⟨secretName, false, output, "command timed out".toList, now⟩,
            some .rotationTimeout, st,
            [logAudit now secretName false output (sentinelText .rotationTimeout)],
            []⟩
        | .exitErr msg o e' =>
          let output := combineOutput o e'
          ⟨some ⟨secretName, false, output, msg, now⟩,
            some .rotationFailed, st,
            [logAudit now secretName false output msg], []⟩
        | .success o e' =>
          let output := combineOutput o e'
          let mr := st.MarkRotated now secretName
          match mr.res with
          | .error e =>
            let msg := "rotation succeeded but failed to update store: ".toList
              ++ sentinelText e
            ⟨some ⟨secretName, false, output, msg, now⟩, some e, mr.st,
              [logAudit now secretName false output msg], mr.tr⟩
          | .ok _ =>
            ⟨some ⟨secretName, true, output, [], now⟩, none, mr.st,
              [logAudit now secretName true output []], mr.tr⟩

/-- Result of `Executor.RotateAll`. -/
structure RotateAllOut where
  results : List RotationResult
  err : Option SentinelError
  st : StoreState
  audit : List AuditEntry
  tr : List FsOp
  deriving Repr

/-- The sweep loop of `Executor.RotateAll`: for each listed secret that
carries a rotation hook, invoke `Rotate` and collect its non-nil result,
continuing past failures. -/
def rotateSweep (exec : Str → ExecOutcome) (now : Int) :
    List Secret → StoreState →
    List RotationResult × StoreState × List AuditEntry × List FsOp
  | [], st => ([], st, [], [])
  | sec :: rest, st =>
    if sec.rotateVia = [] then rotateSweep exec now rest st
    else
      let r := Rotate st exec now sec.name
      let (rs, st', auds, trs) := rotateSweep exec now rest r.st
      (r.result.toList ++ rs, st', r.audit ++ auds, r.tr ++ trs)

/-- Embeds `Executor.RotateAll` (rotation package): list the store, then sweep
every secret with a rotation hook; a single failure does not abort the
sweep. -/
def RotateAll (st : StoreState) (exec : Str → ExecOutcome) (now : Int) :
    RotateAllOut :=
  match st.List with
  | .error e => ⟨[], some e, st, [], []⟩
  | .ok secrets =>
    let (rs, st', auds, trs) := rotateSweep exec now secrets st
    ⟨rs, none, st', auds, trs⟩

/-! ## Killswitch (killswitch package) -/

/-- Embeds `types.KillswitchOptions`. -/
structure KillswitchOptions where
  revokeAll : Bool
  rotateAll : Bool
  wipeStore : Bool
  deriving DecidableEq, Repr

/-- One accumulated sub-failure of `Killswitch.Activate`, in the order
`errs` collects them: `"revoke failed: %v"`, `"rotate failed: %v"`,
`"wipe failed: %v"`. -/
inductive KsFailure where
  | revokeFailed (e : SentinelError)
  | rotateFailed (e : SentinelError)
  | wipeFailed (e : SentinelError)
  deriving DecidableEq, Repr

/-- Observation of which sub-operation of `Activate` ran (in execution
order); instrumentation mirroring the statement order of the source. -/
inductive KsEvent where
  | revoke
  | rotate
  | wipe
  deriving DecidableEq, Repr

/-- The composed state `Killswitch.Activate` acts on: the lease manager
and the store (the rotation executor is stateless beyond these). -/
structure KsState where
  mgr : ManagerState
  store : StoreState
  deriving DecidableEq, Repr

/-- Result of `Killswitch.Activate`: `err = none` on success, otherwise
the accumulated sub-failures the composite error message enumerates
(`"killswitch partial failure: <joined errs>"`); the composed state after
the call; the audit entries written by the sub-operations and by
`Activate` itself, in order; the file-system writes; and the sub-operation
execution order. -/
structure ActivateOut where
  err : Option (List KsFailure)
  st : KsState
  audit : List AuditEntry
  tr : List FsOp
  ran : List KsEvent
  deriving Repr

/-- Embeds `Killswitch.Activate` (killswitch package): attempt the selected
sub-operations in the fixed order revoke-all → rotate-all → wipe-store,
accumulating failures and detail summaries, then write exactly one
`killswitch` audit entry of its own with `success = (no failures)` and
the joined details, and return nil or the composite error. -/
def Activate (ks : KsState) (exec : Str → ExecOutcome) (now : Int)
    (options : KillswitchOptions) : ActivateOut :=
  let step1 :
      List KsFailure × List KsDetail × KsState × List AuditEntry ×
        List FsOp × List KsEvent :=
    if options.revokeAll then
      let r := ks.mgr.RevokeAll now
      match r.res with
      | .error e =>
        ([.revokeFailed e], [], { ks with mgr := r.st }, r.audit, r.tr, [.revoke])
      | .ok _ =>
        ([], [.allLeasesRevoked], { ks with mgr := r.st }, r.audit, r.tr, [.revoke])
    else ([], [], ks, [], [], [])
  let (errs1, det1, st1, aud1, tr1, ran1) := step1
  let step2 :
      List KsFailure × List KsDetail × KsState × List AuditEntry ×
        List FsOp × List KsEvent :=
    if options.rotateAll then
      let r := RotateAll st1.store exec now
      match r.err with
      | some e =>
        (errs1 ++ [.rotateFailed e], det1, { st1 with store := r.st },
          aud1 ++ r.audit, tr1 ++ r.tr, ran1 ++ [.rotate])
      | none =>
        let succCount := (r.results.filter (fun res => res.success)).length
        let failCount := (r.results.filter (fun res => !res.success)).length
        let det' := if 0 < succCount ∨ 0 < failCount then
            det1 ++ [.rotatedSecrets succCount failCount]
          else det1
        (errs1, det', { st1 with store := r.st }, aud1 ++ r.audit,
          tr1 ++ r.tr, ran1 ++ [.rotate])
    else (errs1, det1, st1, aud1, tr1, ran1)
  let (errs2, det2, st2, aud2, tr2, ran2) := step2
  let step3 :
      List KsFailure × List KsDetail × KsState × List AuditEntry ×
        List FsOp × List KsEvent :=
    if options.wipeStore then
      let r := st2.store.WipeAll
      match r.res with
      | .error e =>
        (errs2 ++ [.wipeFailed e], det2, { st2 with store := r.st },
          aud2, tr2 ++ r.tr, ran2 ++ [.wipe])
      | .ok _ =>
        (errs2, det2 ++ [.storeWiped], { st2 with store := r.st },
          aud2, tr2 ++ r.tr, ran2 ++ [.wipe])
    else (errs2, det2, st2, aud2, tr2, ran2)
  let (errs3, det3, st3, aud3, tr3, ran3) := step3
  let finalEntry :=
    (NewEntry now .killswitch (errs3 = [])).WithDetails (.killswitchSummary det3)
  { err := if errs3 = [] then none else some errs3
    st := st3
    audit := aud3 ++ [finalEntry]
    tr := tr3
    ran := ran3 }

/-- Result of `Manager.RevokeBySecret`: the revoked count, the manager
state after the call, the audit entries and file-system writes. -/
structure RevokeCountOut where
  count : Nat
  st : ManagerState
  audit : List AuditEntry
  tr : List FsOp
  deriving Repr

/-- Embeds `Manager.RevokeBySecret` (lease package): flip all matching
non-revoked leases, return the count, persist, audit once. -/
def ManagerState.RevokeBySecret (m : ManagerState) (now : Int)
    (ns secretName : Str) : RevokeCountOut :=
  let count := (m.leases.filter (fun kv =>
    kv.2.nspace = ns && kv.2.secretName = secretName && !kv.2.revoked)).length
  let m' := { m with leases := m.leases.map (fun kv =>
    if kv.2.nspace = ns && kv.2.secretName = secretName then
      (kv.1, { kv.2 with revoked := true })
    else kv) }
  ⟨count, m',
    [((((NewEntry now .leaseRevoke true).WithNamespace ns).WithSecret
      secretName).WithDetails (.revokedLeases count))],
    m'.SaveTrace now⟩

/-! ## Request dispatcher (daemon package) -/

/-- daemon.go method-name constants. -/
def MethodInit : Str := "secrets.init".toList
def MethodAdd : Str := "secrets.add".toList
def MethodGet : Str := "secrets.get".toList
def MethodDelete : Str := "secrets.delete".toList
def MethodList : Str := "secrets.list".toList
def MethodLease : Str := "secrets.lease".toList
def MethodRevoke : Str := "secrets.revoke".toList
def MethodRevokeAll : Str := "secrets.revokeAll".toList
def MethodRotate : Str := "secrets.rotate".toList
def MethodAudit : Str := "secrets.audit".toList
def MethodStatus : Str := "secrets.status".toList

/-- Embeds `types.RPCError`. The `data` field is never set by the dispatcher. -/
structure RPCError where
  code : Int
  message : Str
  deriving DecidableEq, Repr

/-- Embeds `types.RPCErrorFromError` (errors.go): map an internal error to a
stable JSON-RPC code, defaulting to internal error −32603. Restricted to
the sentinels the embedded subsystems produce; a generic (`fmt.Errorf`)
errors carry their message and map to −32603. -/
inductive GoError where
  | sentinel (e : SentinelError)
  | generic (msg : Str)
  deriving DecidableEq, Repr

def RPCErrorFromError : GoError → RPCError
  | .sentinel .secretNotFound => ⟨-32000, sentinelText .secretNotFound⟩
  | .sentinel .leaseNotFound => ⟨-32001, sentinelText .leaseNotFound⟩
  | .sentinel .rotationFailed => ⟨-32003, sentinelText .rotationFailed⟩
  | .sentinel .rotationTimeout => ⟨-32003, sentinelText .rotationTimeout⟩
  | .sentinel e => ⟨-32603, sentinelText e⟩
  | .generic msg => ⟨-32603, msg⟩

/-- Decoded request parameters. The Go handlers unmarshal the request's
raw `params` into per-method structs; the embedding carries the decoded
form directly. `leaseP`'s ttl is the already-parsed duration (`none` for
the empty string). -/
inductive RPCParams where
  | addP (name value rotateVia : Str)
  | getP (name : Str)
  | deleteP (name : Str)
  | leaseP (secretName clientId : Str) (ttl : Option Int)
  | revokeP (leaseId : Str)
  | rotateP (secretName : Str)
  | auditP (tail : Nat)
  | emptyP
  deriving DecidableEq, Repr

/-- Metadata projection returned by `secrets.list` (handlers.go). -/
structure SecretMetadata where
  name : Str
  createdAt : Int
  updatedAt : Int
  rotateVia : Str
  lastRotated : Int
  deriving DecidableEq, Repr

/-- The `result` payload of a successful response, one constructor per
method result type of daemon.go. -/
inductive ResultVal where
  | initRes (success : Bool)
  | addRes (success : Bool) (name : Str)
  | deleteRes (success : Bool) (name : Str)
  | listRes (secrets : List SecretMetadata)
  | leaseRes (leaseId : Str) (value : Str) (expiresAt : Int)
  | revokeRes (success : Bool) (leaseId : Str)
  | revokeAllRes (success : Bool) (leasesRevoked : Nat)
  | rotateRes (success : Bool) (output error : Str) (executedAt : Int)
  | auditRes (entries : List AuditEntry)
  | statusRes (running : Bool) (secretsCount : Nat) (activeLeases : Nat)
  deriving DecidableEq, Repr

/-- Embeds `types.RPCRequest`, generic over the request id (any JSON value). -/
structure RPCRequest (Id : Type) where
  jsonrpc : Str
  method : Str
  params : Option RPCParams
  id : Id

/-- Embeds `types.RPCResponse`, generic over the id. -/
structure RPCResponse (Id : Type) where
  jsonrpc : Str
  result : Option ResultVal
  error : Option RPCError
  id : Id

/-- The state the handler acts on: the composed subsystems plus the
audit log (a list of records in write order, standing for the
append-only file). -/
structure DaemonState where
  ks : KsState
  auditLog : List AuditEntry
  deriving Repr

/-- Result of dispatching one request. -/
structure HandleOut (Id : Type) where
  resp : RPCResponse Id
  st : DaemonState
  tr : List FsOp

/-- Embeds `Logger.Tail(n)` (audit package): the last `n` records in write
order. -/
def auditTail (n : Nat) (log : List AuditEntry) : List AuditEntry :=
  log.drop (log.length - n)

/-- Embeds `Handler.HandleRequest` (handlers.go): dispatch on the method string;
the `secrets.get` branch refuses with the unauthorized code; unknown
methods refuse with method-not-found. `now`, `freshId` and `exec` carry
the clock, uuid source and shell oracle into the stateful branches.
handlers.go predates the namespaced lease-manager API; where it hands a
bare ref to the lease manager, the embedding splits the ref with
`ParseSecretRef`. -/
def HandleRequest {Id : Type} (d : DaemonState) (exec : Str → ExecOutcome)
    (now : Int) (freshId : Str) (req : RPCRequest Id) : HandleOut Id :=
  let ok : ResultVal → DaemonState → List FsOp → HandleOut Id := fun r st tr =>
    ⟨⟨"2.0".toList, some r, none, req.id⟩, st, tr⟩
  let fail : GoError → HandleOut Id := fun e =>
    ⟨⟨"2.0".toList, none, some (RPCErrorFromError e), req.id⟩, d, []⟩
  if req.method = MethodInit then
    -- handleInit: Store.Init never fails in the model (filesystem errors
    -- are out of scope), so the success result is returned.
    let st := d.ks.store
    let st' := { st with identity := some (st.identity.getD 0), secrets := [] }
    ok (.initRes true) { d with ks := { d.ks with store := st' } } []
  else if req.method = MethodAdd then
    match req.params with
    | none => fail (.generic "parameters are required".toList)
    | some (.addP name value rotateVia) =>
      if name = [] then fail (.generic "secret name is required".toList)
      else if value = [] then fail (.generic "secret value is required".toList)
      else
        let r := d.ks.store.Add now name value rotateVia
        match r.res with
        | .error e => fail (.sentinel e)
        | .ok _ =>
          ok (.addRes true name)
            { d with ks := { d.ks with store := r.st } } r.tr
    | some _ => fail (.generic "invalid parameters".toList)
  else if req.method = MethodGet then
    ⟨⟨"2.0".toList, none,
      some ⟨-32006,
        "direct secret access not allowed; use secrets.lease instead".toList⟩,
      req.id⟩, d, []⟩
  else if req.method = MethodDelete then
    match req.params with
    | none => fail (.generic "parameters are required".toList)
    | some (.deleteP name) =>
      if name = [] then fail (.generic "secret name is required".toList)
      else
        let p := ParseSecretRef name
        let rv := d.ks.mgr.RevokeBySecret now p.1 p.2
        let d1 := { d with ks := { d.ks with mgr := rv.st }
                           auditLog := d.auditLog ++ rv.audit }
        let r := d1.ks.store.Delete name
        match r.res with
        | .error e =>
          ⟨⟨"2.0".toList, none, some (RPCErrorFromError (.sentinel e)), req.id⟩,
            d1, rv.tr⟩
        | .ok _ =>
          ok (.deleteRes true name)
            { d1 with ks := { d1.ks with store := r.st } } (rv.tr ++ r.tr)
    | some _ => fail (.generic "invalid parameters".toList)
  else if req.method = MethodList then
    match d.ks.store.List with
    | .error e => fail (.sentinel e)
    | .ok secrets =>
      ok (.listRes (secrets.map (fun s =>
        ⟨s.name, s.createdAt, s.updatedAt, s.rotateVia, s.lastRotated⟩))) d []
  else if req.method = MethodLease then
    match req.params with
    | none => fail (.generic "parameters are required".toList)
    | some (.leaseP secretName clientId ttl) =>
      if secretName = [] then fail (.generic "secret_name is required".toList)
      else if clientId = [] then fail (.generic "client_id is required".toList)
      else
        match d.ks.store.Get secretName with
        | .error e => fail (.sentinel e)
        | .ok value =>
          let p := ParseSecretRef secretName
          let r := d.ks.mgr.Acquire now freshId p.1 p.2 clientId (ttl.getD 0)
          match r.res with
          | .error e => fail (.sentinel e)
          | .ok lease =>
            ok (.leaseRes lease.id value lease.expiresAt)
              { d with ks := { d.ks with mgr := r.st },
                       auditLog := d.auditLog ++ r.audit } r.tr
    | some _ => fail (.generic "invalid parameters".toList)
  else if req.method = MethodRevoke then
    match req.params with
    | none => fail (.generic "parameters are required".toList)
    | some (.revokeP leaseId) =>
      if leaseId = [] then fail (.generic "lease_id is required".toList)
      else
        let r := d.ks.mgr.Revoke now leaseId
        let d1 := { d with ks := { d.ks with mgr := r.st },
                           auditLog := d.auditLog ++ r.audit }
        match r.res with
        | .error e => ⟨⟨"2.0".toList, none,
            some (RPCErrorFromError (.sentinel e)), req.id⟩, d1, r.tr⟩
        | .ok _ => ok (.revokeRes true leaseId) d1 r.tr
    | some _ => fail (.generic "invalid parameters".toList)
  else if req.method = MethodRevokeAll then
    let count := (d.ks.mgr.List now).length
    let r := Activate d.ks exec now ⟨true, false, false⟩
    let d1 := { d with ks := r.st, auditLog := d.auditLog ++ r.audit }
    match r.err with
    | some _ => fail (.generic "killswitch revoke failed".toList)
    | none => ok (.revokeAllRes true count) d1 r.tr
  else if req.method = MethodRotate then
    match req.params with
    | none => fail (.generic "parameters are required".toList)
    | some (.rotateP secretName) =>
      if secretName = [] then fail (.generic "secret_name is required".toList)
      else
        let r := Rotate d.ks.store exec now secretName
        let d1 := { d with ks := { d.ks with store := r.st },
                           auditLog := d.auditLog ++ r.audit }
        match r.err with
        | some e => ⟨⟨"2.0".toList, none,
            some (RPCErrorFromError (.sentinel e)), req.id⟩, d1, r.tr⟩
        | none =>
          match r.result with
          | some res =>
            ok (.rotateRes res.success res.output res.error res.executedAt) d1 r.tr
          | none => fail (.generic "missing rotation result".toList)
    | some _ => fail (.generic "invalid parameters".toList)
  else if req.method = MethodAudit then
    let tailN := match req.params with
      | some (.auditP n) => if n = 0 then 100 else n
      | _ => 100
    ok (.auditRes (auditTail tailN d.auditLog)) d []
  else if req.method = MethodStatus then
    match d.ks.store.List with
    | .error e => fail (.sentinel e)
    | .ok secrets =>
      ok (.statusRes true secrets.length (d.ks.mgr.List now).length) d []
  else
    ⟨⟨"2.0".toList, none, some ⟨-32601, "method not found".toList⟩, req.id⟩,
      d, []⟩

/-! ## Spec-side definitions for refinement comparison -/

/-- Modelled from the spec's words for the persistence discipline
("write to a sibling temp file with the same `0600` mode, then rename
into place"): the trace of an atomic replace of `finalPath` — one write
of the ciphertext to a distinct temporary path at mode 0600, followed by
a rename of that path onto the final path. Used only to compare the
spec's claimed write discipline with the trace the source produces. -/
def AtomicWritePattern (finalPath : Str) (tr : List FsOp) : Prop :=
  ∃ tmp content, tmp ≠ finalPath ∧
    tr = [FsOp.writeFile tmp content 384, FsOp.rename tmp finalPath]

/-- The sub-failures `Killswitch.Activate` accumulates, computed
independently of `Activate` from which sub-operations can fail in the
composed model: lease `RevokeAll` never fails; `RotateAll` and `WipeAll`
fail exactly when the store has no identity installed. -/
def ksFailuresSpec (ks : KsState) (options : KillswitchOptions) :
    List KsFailure :=
  (if options.rotateAll ∧ ks.store.identity = none then
    [KsFailure.rotateFailed .storeNotInitialized] else []) ++
  (if options.wipeStore ∧ ks.store.identity = none then
    [KsFailure.wipeFailed .storeNotInitialized] else [])

/-! ## Concrete fixtures for witnesses and counterexamples -/

/-- A concrete configuration (the documented defaults: 1h default TTL,
24h max TTL, 30s rotation timeout, in nanoseconds). -/
def cfg0 : Config :=
  ⟨"/tmp/as/secrets.age".toList, "/tmp/as/leases.json".toList,
    3600000000000, 86400000000000, 30000000000⟩

/-- A shell oracle whose commands all succeed with empty output. -/
def execOk : Str → ExecOutcome := fun _ => .success [] []

/-- A shell oracle whose commands all exit non-zero. -/
def execFail : Str → ExecOutcome := fun _ => .exitErr "exit status 1".toList "boom".toList []

/-- An initialized, empty store. -/
def store0 : StoreState := ⟨some 0, [], cfg0⟩

/-- An uninitialized store (no identity installed). -/
def storeUninit : StoreState := ⟨none, [], cfg0⟩

/-- A store holding one secret `default::github` with a rotation hook. -/
def storeGithub : StoreState :=
  ⟨some 0,
    [(secretKey "default".toList "github".toList,
      ⟨"github".toList, "default".toList, 0, 0, "echo NEW".toList, 0, "tok".toList⟩)],
    cfg0⟩

/-- A store holding one secret `default::db` without a rotation hook. -/
def storeNoHook : StoreState :=
  ⟨some 0,
    [(secretKey "default".toList "db".toList,
      ⟨"db".toList, "default".toList, 0, 0, [], 0, "pw".toList⟩)],
    cfg0⟩

/-- A lease that expires at instant 100, not revoked. -/
def leaseAt100 : Lease :=
  ⟨"L1".toList, "default".toList, "api_key".toList, "agent-1".toList, 0, 100, false⟩

/-- A lease manager holding exactly `leaseAt100`. -/
def mgrAt100 : ManagerState := ⟨[("L1".toList, leaseAt100)], cfg0⟩

/-- An empty lease manager. -/
def mgr0 : ManagerState := ⟨[], cfg0⟩

/-- A concrete composed killswitch state: one lease, initialized empty
store. -/
def ks0 : KsState := ⟨mgrAt100, store0⟩

/-- A concrete daemon state for dispatcher witnesses. -/
def daemon0 : DaemonState := ⟨ks0, []⟩

/-- A concrete `secrets.get` request with numeric id 7 and no params. -/
def getReq : RPCRequest Nat := ⟨"2.0".toList, MethodGet, none, 7⟩

/-! ## Helper lemmas -/

theorem mapLookup_insert_self (k : Str) (v : α) (m : List (Str × α)) :
    mapLookup k (mapInsert k v m) = some v := by
  induction m with
  | nil => simp [mapInsert, mapLookup]
  | cons hd tl ih =>
    obtain ⟨k', v'⟩ := hd
    by_cases h : k' = k
    · simp [mapInsert, mapLookup, h]
    · simp [mapInsert, mapLookup, h, ih]

/-! ## C1 — the dispatcher refuses `secrets.get` with code −32006 -/

/-- C1. For every JSON-RPC request whose method is `secrets.get`, the
dispatcher's `HandleRequest` returns a response carrying an error with
code −32006 (unauthorized) and no result, with the request's id echoed,
regardless of the request's params, the request id, and the current
contents of the store. -/
theorem get_always_unauthorized {Id : Type} (d : DaemonState)
    (exec : Str → ExecOutcome) (now : Int) (freshId : Str)
    (req : RPCRequest Id) (h : req.method = MethodGet) :
    (HandleRequest d exec now freshId req).resp.error =
      some ⟨-32006,
        "direct secret access not allowed; use secrets.lease instead".toList⟩ ∧
    (HandleRequest d exec now freshId req).resp.result = none ∧
    (HandleRequest d exec now freshId req).resp.id = req.id := by
  unfold HandleRequest
  rw [h]
  rw [if_neg (by decide : ¬ (MethodGet = MethodInit))]
  rw [if_neg (by decide : ¬ (MethodGet = MethodAdd))]
  rw [if_pos rfl]
  exact ⟨rfl, rfl, rfl⟩

/-- Witness for C1: the concrete `secrets.get` request `getReq` against
the concrete daemon state `daemon0` is refused with code −32006. -/
theorem get_always_unauthorized_witness :
    (HandleRequest daemon0 execOk 0 [] getReq).resp.error =
      some ⟨-32006,
        "direct secret access not allowed; use secrets.lease instead".toList⟩ ∧
    (HandleRequest daemon0 execOk 0 [] getReq).resp.result = none ∧
    (HandleRequest daemon0 execOk 0 [] getReq).resp.id = getReq.id :=
  get_always_unauthorized daemon0 execOk 0 [] getReq rfl

/-! ## C10 — every store operation refuses before initialization -/

/-- C10. Every store operation that touches secrets (`Add`, `Get`,
`Update`, `Delete`, `List`, `MarkRotated`, `WipeAll`, `Save`), invoked
before an identity has been installed, returns the `StoreNotInitialized`
error, leaves the in-memory secret map unchanged, and performs no
file-system write. -/
theorem store_ops_require_init (s : StoreState) (now : Int)
    (name value rotateVia : Str) (rv : Option Str)
    (h : s.identity = none) :
    s.Add now name value rotateVia = ⟨.error .storeNotInitialized, s, []⟩ ∧
    s.Get name = .error .storeNotInitialized ∧
    s.Update now name value rv = ⟨.error .storeNotInitialized, s, []⟩ ∧
    s.Delete name = ⟨.error .storeNotInitialized, s, []⟩ ∧
    s.List = .error .storeNotInitialized ∧
    s.MarkRotated now name = ⟨.error .storeNotInitialized, s, []⟩ ∧
    s.WipeAll = ⟨.error .storeNotInitialized, s, []⟩ ∧
    s.Save = ⟨.error .storeNotInitialized, s, []⟩ := by
  obtain ⟨ident, secrets, cfg⟩ := s
  simp only [StoreState.identity] at h
  subst h
  exact ⟨rfl, rfl, rfl, rfl, rfl, rfl, rfl, rfl⟩

/-- Witness for C10: the uninitialized store `storeUninit` refuses every
operation with `StoreNotInitialized` and stays untouched. -/
theorem store_ops_require_init_witness :
    storeUninit.Add 0 "a".toList "v".toList [] =
      ⟨.error .storeNotInitialized, storeUninit, []⟩ ∧
    storeUninit.Get "a".toList = .error .storeNotInitialized ∧
    storeUninit.Update 0 "a".toList "v".toList none =
      ⟨.error .storeNotInitialized, storeUninit, []⟩ ∧
    storeUninit.Delete "a".toList = ⟨.error .storeNotInitialized, storeUninit, []⟩ ∧
    storeUninit.List = .error .storeNotInitialized ∧
    storeUninit.MarkRotated 0 "a".toList =
      ⟨.error .storeNotInitialized, storeUninit, []⟩ ∧
    storeUninit.WipeAll = ⟨.error .storeNotInitialized, storeUninit, []⟩ ∧
    storeUninit.Save = ⟨.error .storeNotInitialized, storeUninit, []⟩ :=
  store_ops_require_init storeUninit 0 "a".toList "v".toList [] none rfl

/-! ## C9 — reference parsing and formatting -/

/-- Unfolding of `findDelim` at a non-colon head: the delimiter cannot
start here, so the search continues in the tail. -/
theorem findDelim_cons_ne (c : Char) (rest : Str) (hc : c ≠ ':') :
    findDelim (c :: rest) = (findDelim rest).map (fun p => (c :: p.1, p.2)) := by
  rw [findDelim.eq_def]
  split
  · simp_all
  · rename_i r heq
    exact absurd (List.cons.inj heq).1 hc
  · rename_i c0 rest0 hne1 heq
    obtain ⟨h1, h2⟩ := List.cons.inj heq
    subst h1; subst h2
    cases h : findDelim rest <;> simp [h]

/-- Unfolding of `findDelim` at a colon followed by a non-colon: the
delimiter cannot start here either. -/
theorem findDelim_colon_cons (c' : Char) (rest : Str) (hc : c' ≠ ':') :
    findDelim (':' :: c' :: rest) =
      (findDelim (c' :: rest)).map (fun p => ((':' : Char) :: p.1, p.2)) := by
  rw [findDelim.eq_def]
  split
  · simp_all
  · rename_i r heq
    exact absurd (List.cons.inj (List.cons.inj heq).2).1 hc
  · rename_i c0 rest0 hne1 heq
    obtain ⟨h1, h2⟩ := List.cons.inj heq
    subst h1; subst h2
    cases h : findDelim (c' :: rest) <;> simp [h]

/-- When `ns ++ ":"` contains no `"::"` (equivalently: `ns` contains no
`"::"` and does not end in `':'`), the first `"::"` of
`ns ++ "::" ++ name` sits exactly after `ns`. -/
theorem findDelim_append (ns name : Str)
    (h : findDelim (ns ++ [':']) = none) :
    findDelim (ns ++ ':' :: ':' :: name) = some (ns, name) := by
  induction ns with
  | nil => simp [findDelim]
  | cons c rest ih =>
    by_cases hc : c = ':'
    · subst hc
      rcases rest with _ | ⟨c', rest'⟩
      · simp [findDelim] at h
      · by_cases hc' : c' = ':'
        · subst hc'
          simp [findDelim] at h
        · rw [List.cons_append, List.cons_append,
            findDelim_colon_cons c' (rest' ++ [':']) hc'] at h
          rw [Option.map_eq_none'] at h
          have h2 : findDelim ((c' :: rest') ++ [':']) = none := by
            rw [List.cons_append]; exact h
          have h3 := ih h2
          rw [List.cons_append] at h3
          rw [List.cons_append, List.cons_append,
            findDelim_colon_cons c' _ hc', h3]
          rfl
    · rw [List.cons_append, findDelim_cons_ne c _ hc, Option.map_eq_none'] at h
      have h3 := ih h
      rw [List.cons_append, findDelim_cons_ne c _ hc, h3]
      rfl

/-- Counterexample for C9: the round trip fails when the namespace itself
ends in `':'`. Formatting `("a:", "b")` yields `"a:::b"`, whose first
`"::"` sits after `"a"`, so parsing returns `("a", ":b")`, not
`("a:", "b")`. The claim's universal quantification over every namespace
is therefore false; it holds only for namespaces that neither contain
`"::"` nor end in `':'`. -/
theorem parse_format_roundtrip_cex :
    ParseSecretRef (FullName "a:".toList "b".toList) =
      ("a".toList, ":b".toList) ∧
    ParseSecretRef (FullName "a:".toList "b".toList) ≠
      ("a:".toList, "b".toList) := by
  constructor <;> decide

/-- C9 (amended). `ParseSecretRef` splits at the first `"::"` only. For
every namespace `ns` that contains no `"::"` and does not end in `':'`
(together: `findDelim (ns ++ ":") = none`) and every name — names may
themselves contain `"::"` — parsing the formatted `ns ++ "::" ++ name`
returns exactly `(ns, name)`; and parsing a bare name containing no
`"::"` yields `("default", name)`. -/
theorem parse_ref_first_delim (ns name bare : Str)
    (hNs : findDelim (ns ++ [':']) = none)
    (hBare : findDelim bare = none) :
    ParseSecretRef (FullName ns name) = (ns, name) ∧
    ParseSecretRef bare = (DefaultNamespace, bare) := by
  constructor
  · show ParseSecretRef ((ns ++ NamespaceDelimiter) ++ name) = (ns, name)
    rw [List.append_assoc]
    show ParseSecretRef (ns ++ ':' :: ':' :: name) = (ns, name)
    unfold ParseSecretRef
    rw [findDelim_append ns name hNs]
  · unfold ParseSecretRef
    rw [hBare]

/-- Witness for C9 (amended): `"work::api::key"` parses back to
`("work", "api::key")`, and the bare `"token"` parses to
`("default", "token")`. -/
theorem parse_ref_first_delim_witness :
    ParseSecretRef (FullName "work".toList "api::key".toList) =
      ("work".toList, "api::key".toList) ∧
    ParseSecretRef "token".toList = (DefaultNamespace, "token".toList) :=
  parse_ref_first_delim "work".toList "api::key".toList "token".toList
    (by decide) (by decide)

/-! ## C5 — the active set returned by lease `List` -/

/-- Counterexample for C5: `IsExpired` uses `time.Now().After(expires_at)`,
which is strict, so a non-revoked lease observed at exactly
`now = expires_at` is still returned by `List` — the claim says it must be
absent. `leaseAt100` expires at instant 100 and is not revoked, yet
`List` at instant 100 returns it. -/
theorem lease_list_boundary_cex :
    leaseAt100.revoked = false ∧
    leaseAt100.expiresAt = 100 ∧
    ManagerState.List mgrAt100 100 = [leaseAt100] := by
  refine ⟨rfl, rfl, ?_⟩
  decide

/-- C5 (amended). At every observation instant, lease `List` returns
exactly the leases in the map satisfying `!revoked && !(expires_at < now)`
— i.e. active means `now ≤ expires_at`, not `now < expires_at`: a
non-revoked lease observed at exactly `now = expires_at` is still
included; it drops out only strictly after its expiry instant. -/
theorem lease_list_active (m : ManagerState) (now : Int) (l : Lease) :
    l ∈ m.List now ↔
      (∃ k, (k, l) ∈ m.leases) ∧ l.revoked = false ∧ now ≤ l.expiresAt := by
  unfold ManagerState.List
  simp only [List.mem_map, List.mem_filter]
  constructor
  · rintro ⟨⟨k, l'⟩, ⟨hmem, hval⟩, heq⟩
    subst heq
    simp only [IsValid, IsExpired, Bool.and_eq_true, Bool.not_eq_true',
      decide_eq_false_iff_not, not_lt] at hval
    exact ⟨⟨k, hmem⟩, hval.1, hval.2⟩
  · rintro ⟨⟨k, hmem⟩, hrev, hexp⟩
    refine ⟨(k, l), ⟨hmem, ?_⟩, rfl⟩
    simp only [IsValid, IsExpired, Bool.and_eq_true, Bool.not_eq_true',
      decide_eq_false_iff_not, not_lt]
    exact ⟨hrev, hexp⟩

/-! ## C3 — Add followed by Get returns the value -/

/-- C3. For every reference whose parsed `(namespace, name)` pair is not
already present in an initialized store, and for every value and
rotate-via string, `Store.Add` succeeds and an immediately following
`Store.Get` of the same reference returns exactly that value. -/
theorem add_get_roundtrip (s : StoreState) (now : Int) (i : Nat)
    (ref value rotateVia : Str)
    (hid : s.identity = some i)
    (habs : mapLookup (secretKey (ParseSecretRef ref).1 (ParseSecretRef ref).2)
      s.secrets = none) :
    (s.Add now ref value rotateVia).res = .ok () ∧
    (s.Add now ref value rotateVia).st.Get ref = .ok value := by
  obtain ⟨ident, secrets, cfg⟩ := s
  simp only [StoreState.identity] at hid
  subst hid
  simp only [StoreState.secrets] at habs
  constructor
  · simp [StoreState.Add, habs, saveUnlocked]
  · simp [StoreState.Add, habs, saveUnlocked, StoreState.Get,
      mapLookup_insert_self]

/-- Witness for C3: adding `work::db = "hunter2"` to the initialized
empty store `store0` succeeds, and `Get "work::db"` returns `"hunter2"`. -/
theorem add_get_roundtrip_witness :
    (store0.Add 0 "work::db".toList "hunter2".toList []).res = .ok () ∧
    (store0.Add 0 "work::db".toList "hunter2".toList []).st.Get
      "work::db".toList = .ok "hunter2".toList :=
  add_get_roundtrip store0 0 0 "work::db".toList "hunter2".toList []
    rfl (by decide)

/-! ## C4 — Acquire TTL substitution and refusal -/

/-- C4. For every call to lease `Acquire`: if the requested `ttl ≤ 0`,
the configured default TTL is substituted and (whenever the default
respects the configured maximum, which config validation guarantees) a
lease is issued with `expires_at = created_at + default`; if the
post-substitution ttl exceeds `max_lease_ttl`, `Acquire` returns the
`InvalidTTL` error, writes exactly one failure `lease_acquire` audit
record for the refusal, inserts no lease into the map, and writes no
file. -/
theorem acquire_ttl_policy (m : ManagerState) (now : Int)
    (freshId ns sn cid : Str) (ttl : Int) :
    (ttl ≤ 0 → m.cfg.defaultLeaseTTL ≤ m.cfg.maxLeaseTTL →
      ∃ l, (m.Acquire now freshId ns sn cid ttl).res = .ok l ∧
        l.createdAt = now ∧
        l.expiresAt = now + m.cfg.defaultLeaseTTL ∧
        mapLookup freshId (m.Acquire now freshId ns sn cid ttl).st.leases =
          some l) ∧
    (m.cfg.maxLeaseTTL < (if ttl ≤ 0 then m.cfg.defaultLeaseTTL else ttl) →
      (m.Acquire now freshId ns sn cid ttl).res = .error .invalidTTL ∧
      (m.Acquire now freshId ns sn cid ttl).st = m ∧
      (m.Acquire now freshId ns sn cid ttl).audit =
        [(((((NewEntry now .leaseAcquire false).WithNamespace ns).WithSecret
          sn).WithClient cid).WithDetails
            (.ttlExceedsMax (if ttl ≤ 0 then m.cfg.defaultLeaseTTL else ttl)
              m.cfg.maxLeaseTTL))] ∧
      (m.Acquire now freshId ns sn cid ttl).tr = []) := by
  constructor
  · intro h0 hd
    refine ⟨⟨freshId, ns, sn, cid, now, now + m.cfg.defaultLeaseTTL, false⟩,
      ?_, rfl, rfl, ?_⟩
    · unfold ManagerState.Acquire
      rw [if_pos h0, if_neg (not_lt.mpr hd)]
    · unfold ManagerState.Acquire
      rw [if_pos h0, if_neg (not_lt.mpr hd)]
      exact mapLookup_insert_self _ _ _
  · intro hmax
    unfold ManagerState.Acquire
    rw [if_pos hmax]
    exact ⟨rfl, rfl, rfl, rfl⟩

/-- Witness for C4: with the default configuration (1h default, 24h max),
acquiring with `ttl = 0` issues a lease expiring one hour after `now = 5`;
acquiring with a ttl above the maximum is refused with `InvalidTTL`, one
failure audit record, no insertion and no file write. -/
theorem acquire_ttl_policy_witness :
    (∃ l, (mgr0.Acquire 5 "L2".toList [] [] [] 0).res = .ok l ∧
      l.createdAt = 5 ∧
      l.expiresAt = 5 + mgr0.cfg.defaultLeaseTTL ∧
      mapLookup "L2".toList (mgr0.Acquire 5 "L2".toList [] [] [] 0).st.leases =
        some l) ∧
    ((mgr0.Acquire 5 "L2".toList [] [] [] 100000000000000000).res =
        .error .invalidTTL ∧
      (mgr0.Acquire 5 "L2".toList [] [] [] 100000000000000000).st = mgr0 ∧
      (mgr0.Acquire 5 "L2".toList [] [] [] 100000000000000000).audit =
        [(((((NewEntry 5 .leaseAcquire false).WithNamespace []).WithSecret
          []).WithClient []).WithDetails
            (.ttlExceedsMax
              (if (100000000000000000 : Int) ≤ 0 then mgr0.cfg.defaultLeaseTTL
                else 100000000000000000)
              mgr0.cfg.maxLeaseTTL))] ∧
      (mgr0.Acquire 5 "L2".toList [] [] [] 100000000000000000).tr = []) :=
  ⟨(acquire_ttl_policy mgr0 5 "L2".toList [] [] [] 0).1 (by decide) (by decide),
    (acquire_ttl_policy mgr0 5 "L2".toList [] [] [] 100000000000000000).2
      (by decide)⟩

/-! ## C8 — structured rotation results -/

/-- Counterexample for C8: `Rotate` returns a nil result — only an error —
both when the secret is not found and when it has no rotation hook, so
the claim that every failure outcome carries a non-nil structured
`RotationResult` is false on the code. -/
theorem rotate_nil_result_cex :
    ((Rotate store0 execOk 0 "x".toList).result = none ∧
      (Rotate store0 execOk 0 "x".toList).err = some .secretNotFound) ∧
    ((Rotate storeNoHook execOk 0 "db".toList).result = none ∧
      (Rotate storeNoHook execOk 0 "db".toList).err = some .noRotationHook) :=
  ⟨⟨rfl, rfl⟩, ⟨rfl, rfl⟩⟩

/-- C8 (amended). `Rotate` returns a non-nil structured result — carrying
the secret name, the execution instant, and a success flag that is true
exactly when no error is reported — in every outcome in which the hook
was actually executed (normal exit, non-zero exit, timeout, and the
post-success store-update failure); but in the pre-execution failure
outcomes (store not initialized, secret not found, no rotation hook
configured) it returns a nil result alongside the error. -/
theorem rotate_structured_result (st : StoreState) (exec : Str → ExecOutcome)
    (now : Int) (name : Str) :
    ((Rotate st exec now name).result = none →
      (Rotate st exec now name).err = some .storeNotInitialized ∨
      (Rotate st exec now name).err = some .secretNotFound ∨
      (Rotate st exec now name).err = some .noRotationHook) ∧
    (∀ r, (Rotate st exec now name).result = some r →
      r.secretName = name ∧ r.executedAt = now ∧
      ((Rotate st exec now name).err = none → r.success = true) ∧
      ((Rotate st exec now name).err ≠ none → r.success = false)) ∧
    (∀ i sec, st.identity = some i →
      (st.secrets.map (fun kv => kv.2.meta)).find?
        (fun s => s.name = name) = some sec →
      sec.rotateVia ≠ [] →
      ∃ r, (Rotate st exec now name).result = some r) := by
  rcases st with ⟨ident, secrets, cfg⟩
  rcases ident with _ | i
  · refine ⟨fun _ => Or.inl rfl, fun r hr => ?_, fun i sec hid => ?_⟩
    · exact absurd hr (by simp [Rotate, StoreState.List])
    · exact absurd hid (by simp [StoreState.identity])
  · rcases hf : (secrets.map (fun kv => kv.2.meta)).find?
      (fun s => s.name = name) with _ | sec
    · refine ⟨fun _ => ?_, fun r hr => ?_, fun i sec hid hfind => ?_⟩
      · right; left
        simp [Rotate, StoreState.List, hf]
      · exact absurd hr (by simp [Rotate, StoreState.List, hf])
      · simp only [StoreState.secrets] at hfind
        rw [hf] at hfind
        exact absurd hfind (by simp)
    · by_cases hv : sec.rotateVia = []
      · refine ⟨fun _ => ?_, fun r hr => ?_, fun i sec' hid hfind hhook => ?_⟩
        · right; right
          simp [Rotate, StoreState.List, hf, hv]
        · exact absurd hr (by simp [Rotate, StoreState.List, hf, hv])
        · simp only [StoreState.secrets] at hfind
          rw [hf] at hfind
          obtain rfl : sec = sec' := by simpa using hfind
          exact absurd hv hhook
      · rcases he : exec sec.rotateVia with ⟨o, e'⟩ | ⟨msg, o, e'⟩ | ⟨o, e'⟩
        · -- normal exit with success: result present; success tracks the
          -- outcome of MarkRotated.
          rcases hmr : ((⟨some i, secrets, cfg⟩ : StoreState).MarkRotated
            now name).res with e | u
          · refine ⟨fun hr => ?_, fun r hr => ?_, fun _ _ _ _ _ => ?_⟩
            · exact absurd hr (by simp [Rotate, StoreState.List, hf, hv, he, hmr])
            · have : r = ⟨name, false, combineOutput o e',
                "rotation succeeded but failed to update store: ".toList
                  ++ sentinelText e, now⟩ := by
                have := hr
                simp [Rotate, StoreState.List, hf, hv, he, hmr] at this
                exact this.symm
              subst this
              refine ⟨rfl, rfl, fun hnone => ?_, fun _ => rfl⟩
              exact absurd hnone (by simp [Rotate, StoreState.List, hf, hv, he, hmr])
            · exact ⟨⟨name, false, combineOutput o e',
                "rotation succeeded but failed to update store: ".toList
                  ++ sentinelText e, now⟩,
                by simp [Rotate, StoreState.List, hf, hv, he, hmr]⟩
          · refine ⟨fun hr => ?_, fun r hr => ?_, fun _ _ _ _ _ => ?_⟩
            · exact absurd hr (by simp [Rotate, StoreState.List, hf, hv, he, hmr])
            · have : r = ⟨name, true, combineOutput o e', [], now⟩ := by
                have := hr
                simp [Rotate, StoreState.List, hf, hv, he, hmr] at this
                exact this.symm
              subst this
              refine ⟨rfl, rfl, fun _ => rfl, fun hne => ?_⟩
              exact absurd (by simp [Rotate, StoreState.List, hf, hv, he, hmr] :
                (Rotate ⟨some i, secrets, cfg⟩ exec now name).err = none) hne
            · exact ⟨⟨name, true, combineOutput o e', [], now⟩,
                by simp [Rotate, StoreState.List, hf, hv, he, hmr]⟩
        · -- non-zero exit.
          refine ⟨fun hr => ?_, fun r hr => ?_, fun _ _ _ _ _ => ?_⟩
          · exact absurd hr (by simp [Rotate, StoreState.List, hf, hv, he])
          · have : r = ⟨name, false, combineOutput o e', msg, now⟩ := by
              have := hr
              simp [Rotate, StoreState.List, hf, hv, he] at this
              exact this.symm
            subst this
            refine ⟨rfl, rfl, fun hnone => ?_, fun _ => rfl⟩
            exact absurd hnone (by simp [Rotate, StoreState.List, hf, hv, he])
          · exact ⟨⟨name, false, combineOutput o e', msg, now⟩,
              by simp [Rotate, StoreState.List, hf, hv, he]⟩
        · -- deadline exceeded.
          refine ⟨fun hr => ?_, fun r hr => ?_, fun _ _ _ _ _ => ?_⟩
          · exact absurd hr (by simp [Rotate, StoreState.List, hf, hv, he])
          · have : r = ⟨name, false, combineOutput o e',
              "command timed out".toList, now⟩ := by
              have := hr
              simp [Rotate, StoreState.List, hf, hv, he] at this
              exact this.symm
            subst this
            refine ⟨rfl, rfl, fun hnone => ?_, fun _ => rfl⟩
            exact absurd hnone (by simp [Rotate, StoreState.List, hf, hv, he])
          · exact ⟨⟨name, false, combineOutput o e',
              "command timed out".toList, now⟩,
              by simp [Rotate, StoreState.List, hf, hv, he]⟩

/-- Witness for C8 (amended): rotating `default::github` in
`storeGithub` under a failing shell gives a structured failed result, and
the third clause applies at the concrete secret. -/
theorem rotate_structured_result_witness :
    (∃ r, (Rotate storeGithub execFail 0 "github".toList).result = some r) ∧
    (∀ r, (Rotate storeGithub execFail 0 "github".toList).result = some r →
      r.secretName = "github".toList ∧ r.executedAt = 0 ∧
      ((Rotate storeGithub execFail 0 "github".toList).err = none →
        r.success = true) ∧
      ((Rotate storeGithub execFail 0 "github".toList).err ≠ none →
        r.success = false)) :=
  ⟨(rotate_structured_result storeGithub execFail 0 "github".toList).2.2 0
      ⟨"github".toList, "default".toList, 0, 0, "echo NEW".toList, 0⟩
      rfl (by decide) (by decide),
    (rotate_structured_result storeGithub execFail 0 "github".toList).2.1⟩

/-! ## C2 — store persistence discipline -/

/-- Counterexample for C2: `saveUnlocked` calls
`os.WriteFile(s.cfg.SecretsPath, ciphertext, 0600)` directly — there is
no sibling temporary file and no rename. The concrete mutation
`store0.Add` produces a one-element trace that cannot match the
write-temp-then-rename pattern the claim requires. -/
theorem store_write_not_atomic_cex :
    (store0.Add 0 "a".toList "v".toList []).tr =
      [FsOp.writeFile cfg0.secretsPath
        (FileContent.encrypted StoreVersionV2
          (store0.Add 0 "a".toList "v".toList []).st.secrets) 384] ∧
    ¬ AtomicWritePattern cfg0.secretsPath
      (store0.Add 0 "a".toList "v".toList []).tr := by
  refine ⟨rfl, ?_⟩
  rintro ⟨tmp, content, hne, heq⟩
  have htr : (store0.Add 0 "a".toList "v".toList []).tr =
      [FsOp.writeFile cfg0.secretsPath
        (FileContent.encrypted StoreVersionV2
          (store0.Add 0 "a".toList "v".toList []).st.secrets) 384] := rfl
  rw [htr] at heq
  simp at heq

/-- C2 (amended). Every mutation of an initialized store (`Add`,
`Update`, `MarkRotated`, `Delete`, `WipeAll`) persists by serializing and
encrypting the entire document and writing the ciphertext in a single
direct `os.WriteFile` call at the final secrets path with mode 0600 —
there is no sibling temporary file and no rename, so the write is not
atomic against crashes. -/
theorem store_mutations_direct_write (s : StoreState) (now : Int)
    (name value rotateVia : Str) (rv : Option Str) (i : Nat)
    (hid : s.identity = some i) :
    ((s.Add now name value rotateVia).res = .ok () →
      (s.Add now name value rotateVia).tr =
        [FsOp.writeFile s.cfg.secretsPath
          (FileContent.encrypted StoreVersionV2
            (s.Add now name value rotateVia).st.secrets) 384]) ∧
    ((s.Update now name value rv).res = .ok () →
      (s.Update now name value rv).tr =
        [FsOp.writeFile s.cfg.secretsPath
          (FileContent.encrypted StoreVersionV2
            (s.Update now name value rv).st.secrets) 384]) ∧
    ((s.MarkRotated now name).res = .ok () →
      (s.MarkRotated now name).tr =
        [FsOp.writeFile s.cfg.secretsPath
          (FileContent.encrypted StoreVersionV2
            (s.MarkRotated now name).st.secrets) 384]) ∧
    ((s.Delete name).res = .ok () →
      (s.Delete name).tr =
        [FsOp.writeFile s.cfg.secretsPath
          (FileContent.encrypted StoreVersionV2
            (s.Delete name).st.secrets) 384]) ∧
    (s.WipeAll.tr =
      [FsOp.writeFile s.cfg.secretsPath
        (FileContent.encrypted StoreVersionV2 s.WipeAll.st.secrets) 384]) := by
  obtain ⟨ident, secrets, cfg⟩ := s
  simp only [StoreState.identity] at hid
  subst hid
  refine ⟨?_, ?_, ?_, ?_, ?_⟩
  · intro hres
    rcases hk : mapLookup (secretKey (ParseSecretRef name).1
      (ParseSecretRef name).2) secrets with _ | v
    · simp [StoreState.Add, hk, saveUnlocked]
    · exact absurd hres (by simp [StoreState.Add, hk])
  · intro hres
    rcases hk : mapLookup (secretKey (ParseSecretRef name).1
      (ParseSecretRef name).2) secrets with _ | v
    · exact absurd hres (by simp [StoreState.Update, hk])
    · simp [StoreState.Update, hk, saveUnlocked]
  · intro hres
    rcases hk : mapLookup (secretKey (ParseSecretRef name).1
      (ParseSecretRef name).2) secrets with _ | v
    · exact absurd hres (by simp [StoreState.MarkRotated, hk])
    · simp [StoreState.MarkRotated, hk, saveUnlocked]
  · intro hres
    rcases hk : mapLookup (secretKey (ParseSecretRef name).1
      (ParseSecretRef name).2) secrets with _ | v
    · exact absurd hres (by simp [StoreState.Delete, hk])
    · simp [StoreState.Delete, hk, saveUnlocked]
  · rfl

/-- Witness for C2 (amended): adding to the initialized empty store
writes the whole encrypted document directly at the secrets path, and so
does `WipeAll`. -/
theorem store_mutations_direct_write_witness :
    (store0.Add 0 "a".toList "v".toList []).tr =
      [FsOp.writeFile store0.cfg.secretsPath
        (FileContent.encrypted StoreVersionV2
          (store0.Add 0 "a".toList "v".toList []).st.secrets) 384] ∧
    store0.WipeAll.tr =
      [FsOp.writeFile store0.cfg.secretsPath
        (FileContent.encrypted StoreVersionV2 store0.WipeAll.st.secrets) 384] :=
  ⟨(store_mutations_direct_write store0 0 "a".toList "v".toList [] none 0
      rfl).1 rfl,
    (store_mutations_direct_write store0 0 "a".toList "v".toList [] none 0
      rfl).2.2.2.2⟩

/-! ## C6/C7 — killswitch composition: helper lemmas -/

theorem markRotated_identity (s : StoreState) (now : Int) (name : Str) :
    (s.MarkRotated now name).st.identity = s.identity := by
  obtain ⟨ident, secrets, cfg⟩ := s
  rcases ident with _ | i
  · rfl
  · unfold StoreState.MarkRotated
    rcases hk : mapLookup (secretKey (ParseSecretRef name).1
      (ParseSecretRef name).2) secrets with _ | v <;> simp [hk, saveUnlocked]

theorem rotate_st_identity (st : StoreState) (exec : Str → ExecOutcome)
    (now : Int) (name : Str) :
    (Rotate st exec now name).st.identity = st.identity := by
  obtain ⟨ident, secrets, cfg⟩ := st
  rcases ident with _ | i
  · rfl
  · unfold Rotate
    rcases hf : (secrets.map (fun kv => kv.2.meta)).find?
      (fun s => s.name = name) with _ | sec
    · simp [StoreState.List, hf]
    · by_cases hv : sec.rotateVia = []
      · simp [StoreState.List, hf, hv]
      · rcases he : exec sec.rotateVia with ⟨o, e'⟩ | ⟨msg, o, e'⟩ | ⟨o, e'⟩
        · rcases hmr : ((⟨some i, secrets, cfg⟩ : StoreState).MarkRotated
            now name).res with e | u <;>
          · simp [StoreState.List, hf, hv, he, hmr]
            rw [show (some i : Option Nat) =
              (⟨some i, secrets, cfg⟩ : StoreState).identity from rfl]
            exact markRotated_identity _ now name
        · simp [StoreState.List, hf, hv, he]
        · simp [StoreState.List, hf, hv, he]

theorem rotateSweep_identity (exec : Str → ExecOutcome) (now : Int)
    (secs : List Secret) (st : StoreState) :
    (rotateSweep exec now secs st).2.1.identity = st.identity := by
  induction secs generalizing st with
  | nil => rfl
  | cons sec rest ih =>
    by_cases hv : sec.rotateVia = []
    · simp [rotateSweep, hv, ih]
    · simp [rotateSweep, hv, ih, rotate_st_identity]

theorem wipeAll_of_some (s : StoreState) (i : Nat) (h : s.identity = some i) :
    s.WipeAll = ⟨.ok (), { s with secrets := [] },
      [FsOp.writeFile s.cfg.secretsPath
        (FileContent.encrypted StoreVersionV2 []) 384]⟩ := by
  obtain ⟨ident, secrets, cfg⟩ := s
  simp only [StoreState.identity] at h
  subst h
  rfl

theorem wipeAll_of_none (s : StoreState) (h : s.identity = none) :
    s.WipeAll = ⟨.error .storeNotInitialized, s, []⟩ := by
  obtain ⟨ident, secrets, cfg⟩ := s
  simp only [StoreState.identity] at h
  subst h
  rfl

theorem rotateAll_err_of_some (st : StoreState) (exec : Str → ExecOutcome)
    (now : Int) (i : Nat) (h : st.identity = some i) :
    (RotateAll st exec now).err = none := by
  obtain ⟨ident, secrets, cfg⟩ := st
  simp only [StoreState.identity] at h
  subst h
  rfl

theorem rotateAll_st_identity (st : StoreState) (exec : Str → ExecOutcome)
    (now : Int) :
    (RotateAll st exec now).st.identity = st.identity := by
  obtain ⟨ident, secrets, cfg⟩ := st
  rcases ident with _ | i
  · rfl
  · unfold RotateAll
    simp only [StoreState.List]
    exact rotateSweep_identity exec now _ _

/-! ## C6 — killswitch ordering and composite error -/

/-- C6. For every options value, `Killswitch.Activate` runs the selected
sub-operations in the fixed order revoke-all → rotate-all → wipe-store
(the execution trace equals the selected subsequence of that order, so a
sub-operation's failure never prevents the later ones from running); the
final return is success exactly when no sub-operation failed, and
otherwise the composite error enumerates every accumulated sub-failure
(`ksFailuresSpec` computes them independently: in the composed model lease
`RevokeAll` never fails, while rotate-all and wipe-store fail exactly on
an uninitialized store). -/
theorem killswitch_order_and_composite_error (ks : KsState)
    (exec : Str → ExecOutcome) (now : Int) (options : KillswitchOptions) :
    (Activate ks exec now options).ran =
      (if options.revokeAll then [KsEvent.revoke] else []) ++
      (if options.rotateAll then [KsEvent.rotate] else []) ++
      (if options.wipeStore then [KsEvent.wipe] else []) ∧
    (Activate ks exec now options).err =
      (if ksFailuresSpec ks options = [] then none
        else some (ksFailuresSpec ks options)) := by
  obtain ⟨mgr, store⟩ := ks
  obtain ⟨ident, secrets, cfg⟩ := store
  rcases options with ⟨ra, ro, ws⟩
  rcases ident with _ | i
  · cases ra <;> cases ro <;> cases ws <;> exact ⟨rfl, rfl⟩
  · have hid := rotateSweep_identity exec now
      (secrets.map (fun kv => kv.2.meta)) ⟨some i, secrets, cfg⟩
    rw [show (⟨some i, secrets, cfg⟩ : StoreState).identity = some i from rfl]
      at hid
    cases ra <;> cases ro <;> cases ws
    · exact ⟨rfl, rfl⟩
    · exact ⟨rfl, rfl⟩
    · exact ⟨rfl, rfl⟩
    · constructor <;>
        simp [Activate, ksFailuresSpec, RotateAll, StoreState.List,
          ManagerState.RevokeAll, wipeAll_of_some _ i hid]
    · exact ⟨rfl, rfl⟩
    · exact ⟨rfl, rfl⟩
    · exact ⟨rfl, rfl⟩
    · constructor <;>
        simp [Activate, ksFailuresSpec, RotateAll, StoreState.List,
          ManagerState.RevokeAll, wipeAll_of_some _ i hid]

/-! ## C7 — killswitch audit records -/

theorem rotate_audit_secretRotate (st : StoreState) (exec : Str → ExecOutcome)
    (now : Int) (name : Str) :
    ∀ e ∈ (Rotate st exec now name).audit, e.action = Action.secretRotate := by
  obtain ⟨ident, secrets, cfg⟩ := st
  rcases ident with _ | i
  · intro e he; simp [Rotate, StoreState.List] at he
  · unfold Rotate
    rcases hf : (secrets.map (fun kv => kv.2.meta)).find?
      (fun s => s.name = name) with _ | sec
    · intro e he; simp [StoreState.List, hf] at he
    · by_cases hv : sec.rotateVia = []
      · intro e he; simp [StoreState.List, hf, hv] at he
      · rcases he' : exec sec.rotateVia with ⟨o, e'⟩ | ⟨msg, o, e'⟩ | ⟨o, e'⟩
        · rcases hmr : ((⟨some i, secrets, cfg⟩ : StoreState).MarkRotated
            now name).res with e0 | u <;>
          · intro e he
            simp [StoreState.List, hf, hv, he', hmr] at he
            subst he
            rfl
        · intro e he
          simp [StoreState.List, hf, hv, he'] at he
          subst he
          rfl
        · intro e he
          simp [StoreState.List, hf, hv, he'] at he
          subst he
          rfl

theorem rotateSweep_audit_killswitch_free (exec : Str → ExecOutcome)
    (now : Int) (secs : List Secret) (st : StoreState) :
    (rotateSweep exec now secs st).2.2.1.filter
      (fun e => e.action = Action.killswitch) = [] := by
  induction secs generalizing st with
  | nil => rfl
  | cons sec rest ih =>
    by_cases hv : sec.rotateVia = []
    · simp [rotateSweep, hv, ih]
    · simp [rotateSweep, hv, List.filter_append, ih]
      intro e he
      have := rotate_audit_secretRotate st exec now sec.name e he
      simp [this]

theorem getLast?_cons_concat {α : Type} (x a : α) (l : List α) :
    (x :: (l ++ [a])).getLast? = some a := by
  rw [← List.cons_append, List.getLast?_concat]

/-- Counterexample for C7: activating the killswitch with
`revoke_all = true` (and nothing else) on the composed state `ks0`
appends TWO audit records tagged `killswitch`, not one: the lease
manager's `RevokeAll` tags its own summary record with the `killswitch`
action, and `Activate` appends its own final record. -/
theorem killswitch_single_record_cex :
    ((Activate ks0 execOk 0 ⟨true, false, false⟩).audit.filter
      (fun e => e.action = Action.killswitch)).length = 2 ∧
    ¬ ((Activate ks0 execOk 0 ⟨true, false, false⟩).audit.filter
      (fun e => e.action = Action.killswitch)).length = 1 := by
  constructor
  · rfl
  · intro h
    rw [(rfl : ((Activate ks0 execOk 0 ⟨true, false, false⟩).audit.filter
      (fun e => e.action = Action.killswitch)).length = 2)] at h
    exact absurd h (by decide)

/-- C7 (amended). `Activate` itself appends exactly one `killswitch`
audit record, as the last entry, whose success field is true exactly when
no sub-operation failed; but when `revoke_all` is selected, the lease
manager's `RevokeAll` also tags its own record with the `killswitch`
action, so the total number of killswitch-tagged records produced by one
execution is two when revoke-all is selected and one otherwise. -/
theorem killswitch_audit_records (ks : KsState) (exec : Str → ExecOutcome)
    (now : Int) (options : KillswitchOptions) :
    ((Activate ks exec now options).audit.filter
      (fun e => e.action = Action.killswitch)).length =
      (if options.revokeAll then 2 else 1) ∧
    ((Activate ks exec now options).audit.getLast?.map
      (fun e => e.action)) = some Action.killswitch ∧
    ((Activate ks exec now options).audit.getLast?.map
      (fun e => e.success)) =
      some (decide ((Activate ks exec now options).err = none)) := by
  obtain ⟨mgr, store⟩ := ks
  obtain ⟨ident, secrets, cfg⟩ := store
  rcases options with ⟨ra, ro, ws⟩
  rcases ident with _ | i
  · cases ra <;> cases ro <;> cases ws <;>
      refine ⟨rfl, ?_, ?_⟩ <;>
      simp [Activate, ManagerState.RevokeAll, RotateAll, StoreState.List,
        StoreState.WipeAll, NewEntry, AuditEntry.WithDetails,
        getLast?_cons_concat, List.getLast?_concat]
  · have hid := rotateSweep_identity exec now
      (secrets.map (fun kv => kv.2.meta)) ⟨some i, secrets, cfg⟩
    rw [show (⟨some i, secrets, cfg⟩ : StoreState).identity = some i from rfl]
      at hid
    have hsw := rotateSweep_audit_killswitch_free exec now
      (secrets.map (fun kv => kv.2.meta)) ⟨some i, secrets, cfg⟩
    cases ra <;> cases ro <;> cases ws <;>
      refine ⟨?_, ?_, ?_⟩ <;>
      simp [Activate, ManagerState.RevokeAll, RotateAll, StoreState.List,
        StoreState.WipeAll, saveUnlocked, hid, List.filter_append, hsw,
        NewEntry, AuditEntry.WithDetails, getLast?_cons_concat,
        List.getLast?_concat]

end AgentSecrets
